import Mathlib

/-!
Verification of the wiretie higher-order component (src/index.js, src/util.js).

The development shallow-embeds the JavaScript source:

* JavaScript values that can flow through the wrapper are modelled by `JSVal`.
  Functions, promises and other objects are represented by opaque identities,
  matching reference (===) equality. `vobj` models an object without
  enumerable own properties.
* JavaScript objects used as dictionaries (component state, `pending`,
  `rejected`, `CACHE`, `currentKeys`, `tracking`) are modelled as association
  lists with the JS update-in-place / append-if-new semantics (`setA`).
* The mutable component instance (this.state, this.currentKeys, this.tracking,
  this.counter, the module-level CACHE, the promise.__wiretieResolved memo
  fields, and this.keys) is one record, `MachineState`. `setState` is the
  immediate merge of the staged partial update, matching the commit the
  wrapped component observes on the next render.
* The component state object is split into its data entries (`values`) and the
  two bookkeeping entries `pending` and `rejected`; this is faithful for every
  mapped property name other than the two reserved names.
* `invoke` is translated line by line; the two promise settlement handlers
  (the success handler at lines 131-137 and the failure handler at lines
  138-146, followed by the shared commit handler at lines 147-155) become the
  step functions `settleResolve` and `settleReject`, taken as atomic, which is
  the staging-then-commit pattern of a single settlement.
-/

namespace Wiretie

/-- A JavaScript value as far as the wrapper can observe it. -/
inductive JSVal where
  | undefV
  | null
  | vbool (b : Bool)
  | vnum (n : Int)
  | vstr (s : String)
  | vfun (fid : Nat)
  | vobj (oid : Nat)
  | vprom (pid : Nat)
deriving DecidableEq, Repr

/-- JavaScript truthiness. -/
def truthy : JSVal → Bool
  | .undefV => false
  | .null => false
  | .vbool b => b
  | .vnum n => n != 0
  | .vstr s => s != ""
  | .vfun _ => true
  | .vobj _ => true
  | .vprom _ => true

/-- The check `p && p.then !== undefined`: only promises are thenable here. -/
def thenable : JSVal → Bool
  | .vprom _ => true
  | _ => false

/-! ### JavaScript objects as association lists -/

/-- Property read `o[k]` returning `none` when the key is absent. -/
def lookupA [BEq α] : List (α × β) → α → Option β
  | [], _ => none
  | kv :: rest, k => if kv.1 == k then some kv.2 else lookupA rest k

/-- The check `k in o`. -/
def hasKeyA [BEq α] : List (α × β) → α → Bool
  | [], _ => false
  | kv :: rest, k => kv.1 == k || hasKeyA rest k

/-- Property write `o[k] = v` (also `{ ...o, [k]: v }`): update in place when
the key exists, append otherwise. -/
def setA [BEq α] : List (α × β) → α → β → List (α × β)
  | [], k, v => [(k, v)]
  | kv :: rest, k, v => if kv.1 == k then (k, v) :: rest else kv :: setA rest k v

/-- `delete o[k]`. -/
def eraseA [BEq α] : List (α × β) → α → List (α × β)
  | [], _ => []
  | kv :: rest, k => if kv.1 == k then eraseA rest k else kv :: eraseA rest k

/-- Property read `o[k]` with the JS default `undefined` for a missing key. -/
def getJS [BEq α] (o : List (α × JSVal)) (k : α) : JSVal :=
  (lookupA o k).getD .undefV

/-! ### src/util.js -/

/-- util.js join: `arr ? arr.join(backslash-n) : empty` (this.keys may be
unset before the first invoke, hence the Option). -/
def joinU : Option (List String) → String
  | some l => String.intercalate "\n" l
  | none => ""

/-- util.js shallowEqual, translated loop by loop: every key of `a` has a
strictly equal value in `b`, and every key of `b` occurs in `a`. -/
def shallowEqual (a b : List (String × JSVal)) : Bool :=
  a.all (fun kv => getJS a kv.1 == getJS b kv.1) &&
  b.all (fun kv => hasKeyA a kv.1)

/-- util.js removeKeyFromObject as written in src/util.js: clones the object
without the key. NOTE: despite its own doc comment, this version returns the
(possibly empty) clone, never `undefined`. -/
def removeKeyFromObject [BEq α] (k : α) (o : List (α × β)) : List (α × β) :=
  if hasKeyA o k then eraseA o k else o

/-! ### Cache keys: JSON.stringify of the invocation triple (index.js line 81) -/

/-- One hexadecimal digit, lower case, as produced by JSON.stringify
escapes. -/
def hexDigit (n : Nat) : Char :=
  if n < 10 then Char.ofNat (48 + n) else Char.ofNat (87 + n)

/-- JSON string escaping of one character. -/
def escChar (c : Char) : List Char :=
  if c == '"' then ['\\', '"']
  else if c == '\\' then ['\\', '\\']
  else if c == '\n' then ['\\', 'n']
  else if c == '\r' then ['\\', 'r']
  else if c == '\t' then ['\\', 't']
  else if c == Char.ofNat 8 then ['\\', 'b']
  else if c == Char.ofNat 12 then ['\\', 'f']
  else if c.toNat < 32 then
    ['\\', 'u', '0', '0', hexDigit (c.toNat / 16), hexDigit (c.toNat % 16)]
  else [c]

/-- JSON string literal for `s`. -/
def jsonQuote (s : String) : String :=
  "\"" ++ String.mk (s.data.map escChar).flatten ++ "\""

/-- Serialization of one array element under JSON.stringify. `undefined` and
functions serialize as `null` inside an array; promises (and the opaque
objects of this model, which carry no enumerable own properties) serialize as
an empty object. -/
def serInArray : JSVal → String
  | .undefV => "null"
  | .null => "null"
  | .vbool b => if b then "true" else "false"
  | .vnum n => toString n
  | .vstr s => jsonQuote s
  | .vfun _ => "null"
  | .vobj _ => "\x7b\x7d"
  | .vprom _ => "\x7b\x7d"

/-- JSON.stringify of an array of such values. -/
def jsonArr (xs : List JSVal) : String :=
  "[" ++ String.intercalate "," (xs.map serInArray) ++ "]"

/-- index.js line 81: `JSON.stringify([contextNamespace, path, ...args])`. -/
def mkKey (ns path : JSVal) (args : List JSVal) : String :=
  jsonArr (ns :: path :: args)

/-- Template-literal conversion of a value to a string, used by the error
message at index.js line 100. -/
def jsToString : JSVal → String
  | .undefV => "undefined"
  | .null => "null"
  | .vbool b => if b then "true" else "false"
  | .vnum n => toString n
  | .vstr s => s
  | .vfun _ => "function"
  | .vobj _ => "[object Object]"
  | .vprom _ => "[object Promise]"

/-! ### The wrapper instance state and configuration -/

/-- One mapping entry: `mapping[prop]` is either an array
`[pathOrLiteral, ...args]` or a bare path/literal (index.js lines 71-76). -/
inductive MapEntry where
  | arr (path : JSVal) (args : List JSVal)
  | plain (path : JSVal)
deriving Repr

/-- The path component of an entry. -/
def entryPath : MapEntry → JSVal
  | .arr p _ => p
  | .plain p => p

/-- The raw arguments of an entry (`path.slice(1)`, empty for a bare path). -/
def entryArgs : MapEntry → List JSVal
  | .arr _ a => a
  | .plain _ => []

/-- Props objects. -/
abbrev Props := List (String × JSVal)

/-- mapToProps: a static object or a function of the props
(index.js lines 66-67). -/
inductive MapSpec where
  | staticM (m : List (String × MapEntry))
  | fnM (f : Props → List (String × MapEntry))

/-- The test `typeof mapToProps === function`. -/
def isFnSpec : MapSpec → Bool
  | .fnM _ => true
  | .staticM _ => false

/-- The mapping used on one cycle. -/
def mappingOf : MapSpec → Props → List (String × MapEntry)
  | .staticM m, _ => m
  | .fnM f, props => f props

/-- The contextual model, already selected from context by
`get(this.context, contextNamespace)`. `delve` is the dlv path lookup with
the JS default `undefined`; `call` gives the value returned by calling the
method found at a path with the given arguments; `callF` gives the value
returned by calling a literal function path with no arguments. -/
structure Model where
  delve : String → JSVal
  call : String → List JSVal → JSVal
  callF : Nat → JSVal

/-- One wire(...) configuration: the context namespace, the mapToProps
specification and the contextual model. -/
structure Config where
  ns : JSVal
  spec : MapSpec
  source : Model

/-- The mutable state of one WireDataWrapper instance, together with the
module-level CACHE of its configuration and the `__wiretieResolved` memo
fields of the promise heap. `values`, `pending` and `rejected` are the
rendered state delivered to the wrapped component (the render method spreads
`...this.state` last, so these win over incoming props). -/
structure MachineState where
  values : List (String × JSVal)
  pending : Option (List (String × JSVal))
  rejected : Option (List (String × JSVal))
  currentKeys : List (String × String)
  tracking : List (String × Nat)
  counter : Nat
  cache : List (String × JSVal)
  memos : List (Nat × JSVal)
  keys : Option (List String)
deriving DecidableEq, Repr

/-- The state created by the constructor (index.js lines 172-181): empty
state, empty key and tracking tables, counter zero, and (for a fresh
configuration) an empty CACHE. -/
def initState : MachineState :=
  { values := [], pending := none, rejected := none, currentKeys := [],
    tracking := [], counter := 0, cache := [], memos := [], keys := none }

/-! ### invoke (index.js lines 64-170) -/

/-- Shorthand argument binding (index.js line 78): a string argument that is
a key of the current props is replaced by the value of that prop. -/
def substArg (props : Props) (p : JSVal) : JSVal :=
  match p with
  | .vstr s =>
    match lookupA props s with
    | some v => v
    | none => .vstr s
  | _ => p

/-- Observable calls into the contextual model. -/
inductive Effect where
  | callPath (path : String) (args : List JSVal)
  | callFn (fid : Nat)
deriving DecidableEq, Repr

/-- The synchronous part of starting an asynchronous invocation for `prop`
with cache key `key` (index.js lines 109-161): stage the pending flag, clear
a previous rejection, allocate the tracking identifier `counter + 1`, stage
the cached value for the key when one is defined, and commit the staged
update in one setState. -/
def issueAsync (st : MachineState) (prop key : String) : MachineState :=
  let newPending : Option (List (String × JSVal)) :=
    match st.pending with
    | none => some [(prop, .vbool true)]
    | some p => if truthy (getJS p prop) then none else some (setA p prop (.vbool true))
  let newRejected : Option (List (String × JSVal)) :=
    match st.rejected with
    | some r => if truthy (getJS r prop) then some (removeKeyFromObject prop r) else none
    | none => none
  let id := st.counter + 1
  let stagedVal : Option JSVal :=
    if getJS st.cache key ≠ .undefV then some (getJS st.cache key) else none
  { st with
    counter := id,
    tracking := setA st.tracking prop id,
    pending := match newPending with | some x => some x | none => st.pending,
    rejected := match newRejected with | some x => some x | none => st.rejected,
    values := match stagedVal with | some v => setA st.values prop v | none => st.values }

/-- Lines 104-166 for an obtained call result `p0`: replace an already
settled promise by its memoized value when that memo is truthy, then either
start the asynchronous bookkeeping for a thenable or set the value directly
into state for a synchronous one (which touches neither `tracking` nor the
pending and rejected sets). -/
def applyResult (st : MachineState) (prop key : String) (p0 : JSVal) : MachineState :=
  let p := match p0 with
    | .vprom pid =>
      match lookupA st.memos pid with
      | some m => if truthy m then m else p0
      | none => p0
    | _ => p0
  match p with
  | .vprom _ => issueAsync st prop key
  | v => { st with values := setA st.values prop v }

/-- Processing of one mapping entry inside the `for (let prop in mapping)`
loop of invoke, threading the machine state, the key list and the emitted
calls, and propagating the synchronous exception of an unresolvable method
path. -/
def invokeStep (cfg : Config) (props : Props) (isFn keysOnly refresh : Bool)
    (acc : MachineState × List String × List Effect) (pe : String × MapEntry) :
    Except String (MachineState × List String × List Effect) :=
  let st := acc.1
  let effs := acc.2.2
  let prop := pe.1
  let path := entryPath pe.2
  let rawArgs := entryArgs pe.2
  let args := if isFn then rawArgs else rawArgs.map (substArg props)
  let key := mkKey cfg.ns path args
  let ks := acc.2.1 ++ [key]
  if keysOnly then .ok (st, ks, effs)
  else if refresh = false ∧ lookupA st.currentKeys prop = some key then .ok (st, ks, effs)
  else
    let st := { st with currentKeys := setA st.currentKeys prop key }
    let callRes : Except String (JSVal × List Effect) :=
      match path with
      | .vfun fid => .ok (cfg.source.callF fid, effs ++ [.callFn fid])
      | .vstr s =>
        let fn := cfg.source.delve s
        if truthy fn then
          match fn with
          | .vfun _ => .ok (cfg.source.call s args, effs ++ [.callPath s args])
          | _ => .error "TypeError: fn is not a function"
        else .error ("Error: " ++ jsToString cfg.ns ++ "." ++ s ++ " not found.")
      | v => .ok (v, effs)
    match callRes with
    | .error msg => .error msg
    | .ok (p0, effs) => .ok (applyResult st prop key p0, ks, effs)

/-- invoke(props, keysOnly, refresh): fold the loop body over the mapping
entries and record the computed key list in `this.keys` on normal return
(index.js line 169). -/
def invoke (cfg : Config) (st : MachineState) (props : Props) (keysOnly refresh : Bool) :
    Except String (MachineState × List String × List Effect) :=
  let isFn := isFnSpec cfg.spec
  let mapping := mappingOf cfg.spec props
  match mapping.foldlM (invokeStep cfg props isFn keysOnly refresh) (st, [], []) with
  | .error e => .error e
  | .ok (st1, ks, effs) => .ok ({ st1 with keys := some ks }, ks, effs)

/-! ### Settlement of an asynchronous invocation (index.js lines 131-155) -/

/-- Successful settlement of the promise `pid` issued for `prop` under `key`
with captured identifier `id`. The success handler (lines 131-137) runs
before the identifier gate: it writes the memo field on the promise and the
shared cache unconditionally. The commit handler (lines 147-155) then drops
the staged update when the captured identifier is stale, and otherwise
removes the tracking entry, removes the pending flag and commits. -/
def settleResolve (st : MachineState) (prop key : String) (pid id : Nat) (data : JSVal) :
    MachineState :=
  let st := { st with memos := setA st.memos pid data, cache := setA st.cache key data }
  if lookupA st.tracking prop = some id then
    let newPending : Option (List (String × JSVal)) :=
      match st.pending with
      | some p => if truthy (getJS p prop) then some (removeKeyFromObject prop p) else none
      | none => none
    { st with
      values := setA st.values prop data,
      pending := match newPending with | some x => some x | none => st.pending,
      tracking := eraseA st.tracking prop }
  else st

/-- Failed settlement of the invocation issued for `prop` under `key` with
captured identifier `id` and rejection value `err`. The failure handler
(lines 138-146) is gated on the identifier before writing anything: a stale
rejection changes nothing at all. A current rejection stages the error into
the rejected set and, when the cached value for the key is truthy, stages
that cached value as the fallback display value; the commit handler then
removes the tracking entry and the pending flag and commits. -/
def settleReject (st : MachineState) (prop key : String) (id : Nat) (err : JSVal) :
    MachineState :=
  if lookupA st.tracking prop = some id then
    let rej := setA (st.rejected.getD []) prop err
    let cachedVal := getJS st.cache key
    let newPending : Option (List (String × JSVal)) :=
      match st.pending with
      | some p => if truthy (getJS p prop) then some (removeKeyFromObject prop p) else none
      | none => none
    { st with
      rejected := some rej,
      values := if truthy cachedVal then setA st.values prop cachedVal else st.values,
      pending := match newPending with | some x => some x | none => st.pending,
      tracking := eraseA st.tracking prop }
  else st

/-! ### Lifecycle methods (index.js lines 208-229) -/

/-- componentWillMount: the initial reconcile. -/
def componentWillMount (cfg : Config) (st : MachineState) (props : Props) :
    Except String (MachineState × List String × List Effect) :=
  invoke cfg st props false false

/-- The refresh prop (index.js lines 208-210): a forced reconcile. -/
def refreshOp (cfg : Config) (st : MachineState) (props : Props) :
    Except String (MachineState × List String × List Effect) :=
  invoke cfg st props false true

/-- componentWillReceiveProps (index.js lines 217-221): when the next props
are shallowly different, compute the keys for the next props (which also
stores them in `this.keys`), and run the full reconcile only when the joined
old and new key lists differ. Evaluation order of the `&&` and of the `!==`
comparison follows the source: the old `this.keys` is read before the
keys-only invoke overwrites it. -/
def componentWillReceiveProps (cfg : Config) (st : MachineState) (curProps nextProps : Props) :
    Except String (MachineState × List Effect) :=
  if shallowEqual nextProps curProps then .ok (st, [])
  else
    let oldJ := joinU st.keys
    match invoke cfg st nextProps true false with
    | .error e => .error e
    | .ok (st1, newKeys, _) =>
      if oldJ ≠ joinU (some newKeys) then
        match invoke cfg st1 nextProps false false with
        | .error e => .error e
        | .ok (st2, _, effs) => .ok (st2, effs)
      else .ok (st1, [])

/-- shouldComponentUpdate (index.js lines 223-225): re-render only when the
incoming props or the state are not shallowly equal to the previous ones.
The JS shallowEqual compares the entries of the two state objects with
strict equality; the structural comparison of the rendered fields used here
agrees with it whenever the state object is unchanged, the only case the
theorems below rely on. -/
def shouldComponentUpdate (nextProps curProps : Props) (nextSt curSt : MachineState) : Bool :=
  !shallowEqual nextProps curProps ||
    !(nextSt.values == curSt.values && nextSt.pending == curSt.pending &&
      nextSt.rejected == curSt.rejected)

/-! ### Concrete scenarios used by the evaluation theorems below -/

/-- A model with no resolvable methods. -/
def mNull : Model :=
  { delve := fun _ => .undefV, call := fun _ _ => .undefV, callF := fun _ => .undefV }

/-- Props `a = 1`. -/
def propsA1 : Props := [("a", .vnum 1)]

/-- Props `a = 2`. -/
def propsA2 : Props := [("a", .vnum 2)]

/-- A model whose method `m` returns a promise (identity 7) when called with
argument `1` and the plain number `99` otherwise. -/
def mC2 : Model :=
  { delve := fun s => if s = "m" then .vfun 0 else .undefV,
    call := fun _ args => if args = [.vnum 1] then .vprom 7 else .vnum 99,
    callF := fun _ => .undefV }

/-- wire configuration mapping `p` to `m(props.a)` through a functional
mapToProps, over `mC2`. -/
def cfgC2 : Config :=
  { ns := .vstr "ns",
    spec := .fnM (fun pr => [("p", .arr (.vstr "m") [getJS pr "a"])]),
    source := mC2 }

/-- The key of the first (asynchronous) invocation in the cfgC2 scenario. -/
def keyC2 : String := mkKey (.vstr "ns") (.vstr "m") [.vnum 1]

/-- Scenario: mount with `a = 1` (issues the async invocation A, captured
identifier 1), update to `a = 2` (invocation B returns the synchronous value
99), then settle A late with the value LATE. Returns the state after B and
the state after the late settlement of A. -/
def traceC2 : Option (MachineState × MachineState) :=
  match componentWillMount cfgC2 initState propsA1 with
  | .ok (st1, _, _) =>
    match componentWillReceiveProps cfgC2 st1 propsA1 propsA2 with
    | .ok (st2, _) => some (st2, settleResolve st2 "p" keyC2 7 1 (.vstr "LATE"))
    | .error _ => none
  | .error _ => none

/-- A model with two synchronous methods `m1` and `m2`. -/
def mC4 : Model :=
  { delve := fun s => if s = "m1" then .vfun 1 else if s = "m2" then .vfun 2 else .undefV,
    call := fun s _ => if s = "m1" then .vnum 11 else .vnum 22,
    callF := fun _ => .undefV }

/-- wire configuration whose functional mapToProps yields the same two
descriptors but in swapped association once `a` changes: for `a = 1` it maps
`p` to `m1()` and `q` to `m2()`, otherwise `q` to `m1()` and `p` to `m2()`.
The joined key list is identical in both cases although the key of each
individual property changes. -/
def cfgC4 : Config :=
  { ns := .vstr "ns",
    spec := .fnM (fun pr =>
      if getJS pr "a" = .vnum 1
      then [("p", .arr (.vstr "m1") []), ("q", .arr (.vstr "m2") [])]
      else [("q", .arr (.vstr "m1") []), ("p", .arr (.vstr "m2") [])]),
    source := mC4 }

/-- Scenario: mount cfgC4 with `a = 1`, then update to `a = 2`. Returns the
state after the update and the effects the update emitted. -/
def traceC4 : Option (MachineState × List Effect) :=
  match componentWillMount cfgC4 initState propsA1 with
  | .ok (st1, _, _) =>
    match componentWillReceiveProps cfgC4 st1 propsA1 propsA2 with
    | .ok (st2, effs) => some (st2, effs)
    | .error _ => none
  | .error _ => none

/-- wire configuration mapping `p` to `m(props.a)` with a synchronous
model method; used as the witness scenario in which an update does run the
full reconcile. -/
def cfgC4w : Config :=
  { ns := .vstr "ns",
    spec := .fnM (fun pr => [("p", .arr (.vstr "m") [getJS pr "a"])]),
    source := { delve := fun s => if s = "m" then .vfun 0 else .undefV,
                call := fun _ _ => .vnum 5, callF := fun _ => .undefV } }

/-- The cfgC4w state after mounting with `a = 1`. -/
def stC4w : MachineState :=
  match componentWillMount cfgC4w initState propsA1 with
  | .ok (s, _, _) => s
  | .error _ => initState

/-- The cfgC4w result of updating from `a = 1` to `a = 2`. -/
def outC4w : MachineState × List Effect :=
  match componentWillReceiveProps cfgC4w stC4w propsA1 propsA2 with
  | .ok o => o
  | .error _ => (initState, [])

/-- A trivial configuration with an empty static mapping. -/
def cfgC6 : Config := { ns := .undefV, spec := .staticM [], source := mNull }

/-- A cache key used in the fallback-on-error witness. -/
def keyC3 : String := mkKey .undefV (.vstr "get") []

/-- State holding the previously resolved falsy value 0 in the shared cache
under keyC3. -/
def stC3 : MachineState := { initState with cache := [(keyC3, .vnum 0)] }

/-- A model with two resolvable methods `s1` and `s2`, used by the refresh
theorem witness. -/
def mC7 : Model :=
  { delve := fun s => if s = "s1" then .vfun 1 else if s = "s2" then .vfun 2 else .undefV,
    call := fun _ _ => .vnum 1, callF := fun _ => .undefV }

/-- State whose currentKeys already hold exactly the keys that the cfg used
in the refresh witness will recompute, so that a non-forced invoke would
skip both properties. -/
def stC7 : MachineState :=
  { initState with currentKeys :=
      [("p1", mkKey (.vstr "ns") (.vstr "s1") []), ("p2", mkKey (.vstr "ns") (.vstr "s2") [])] }

/-- State with an in-flight invocation for `p` tracked under identifier 1,
used by the error-taxonomy witness. -/
def stC8 : MachineState := { initState with tracking := [("p", 1)] }

/-- A model resolving `getStory` to a function, used by the substitution
witness. -/
def mC9 : Model :=
  { delve := fun s => if s = "getStory" then .vfun 3 else .undefV,
    call := fun _ _ => .vnum 1, callF := fun _ => .undefV }

/-- State tracking `p` under identifier 2, so that a settlement captured
with identifier 1 is stale. -/
def stC10 : MachineState := { initState with tracking := [("p", 2)] }

/-! ### Basic lemmas about the object operations -/

theorem lookupA_setA_self [BEq α] [LawfulBEq α] (o : List (α × β)) (k : α) (v : β) :
    lookupA (setA o k v) k = some v := by
  induction o with
  | nil => simp [setA, lookupA]
  | cons kv rest ih =>
    by_cases h : kv.1 == k
    · simp [setA, lookupA, h]
    · simp only [setA, h, if_false, Bool.false_eq_true]
      simp [lookupA, h, ih]

theorem lookupA_setA_ne [BEq α] [LawfulBEq α] (o : List (α × β)) (k k' : α) (v : β)
    (h : k' ≠ k) : lookupA (setA o k v) k' = lookupA o k' := by
  induction o with
  | nil =>
    simp [setA, lookupA]
    intro hk
    exact absurd hk.symm h
  | cons kv rest ih =>
    by_cases hk : kv.1 == k
    · have hkk : kv.1 = k := eq_of_beq hk
      have : (k == k') = false := by
        simp only [beq_eq_false_iff_ne, ne_eq]
        exact fun hh => h hh.symm
      simp [setA, lookupA, hk, this, hkk]
    · simp [setA, lookupA, hk, ih]

theorem lookupA_eraseA_self [BEq α] [LawfulBEq α] (o : List (α × β)) (k : α) :
    lookupA (eraseA o k) k = none := by
  induction o with
  | nil => simp [eraseA, lookupA]
  | cons kv rest ih =>
    by_cases h : kv.1 == k
    · simp [eraseA, h, ih]
    · simp [eraseA, lookupA, h, ih]

theorem hasKeyA_false_lookupA [BEq α] (o : List (α × β)) (k : α)
    (h : hasKeyA o k = false) : lookupA o k = none := by
  induction o with
  | nil => simp [lookupA]
  | cons kv rest ih =>
    simp only [hasKeyA, Bool.or_eq_false_iff] at h
    simp [lookupA, h.1, ih h.2]

theorem lookupA_removeKeyFromObject_self [BEq α] [LawfulBEq α] (o : List (α × β)) (k : α) :
    lookupA (removeKeyFromObject k o) k = none := by
  unfold removeKeyFromObject
  by_cases h : hasKeyA o k
  · simp [h, lookupA_eraseA_self]
  · simp only [Bool.not_eq_true] at h
    simp [h, hasKeyA_false_lookupA o k h]

/-! ### Shape lemmas about issueAsync and the settlement handlers -/

theorem issueAsync_tracking (st : MachineState) (p k : String) :
    (issueAsync st p k).tracking = setA st.tracking p (st.counter + 1) := rfl

theorem issueAsync_counter (st : MachineState) (p k : String) :
    (issueAsync st p k).counter = st.counter + 1 := rfl

theorem issueAsync_cache (st : MachineState) (p k : String) :
    (issueAsync st p k).cache = st.cache := rfl

theorem issueAsync_values_cached (st : MachineState) (p k : String) (V : JSVal)
    (hc : lookupA st.cache k = some V) (hV : V ≠ JSVal.undefV) :
    (issueAsync st p k).values = setA st.values p V := by
  have hg : getJS st.cache k = V := by simp [getJS, hc]
  simp [issueAsync, hg, hV]

/-! ### Claim theorems -/

/-- C1: for the single async invocation of `bar` (captured identifier 1),
`pending.bar` is true from issuance until the settlement commit; but when
this last in-flight property settles, the committed `pending` delivered to
the wrapped component is the EMPTY OBJECT, not undefined: removeKeyFromObject
as written in src/util.js returns the empty clone, contradicting its own doc
comment, the pending doc comment in index.js and the tests, which all state
undefined. The claim is right and the code is wrong. -/
theorem c1_pending_becomes_empty_object_not_undefined :
    (issueAsync initState "bar" keyC3).pending = some [("bar", JSVal.vbool true)] ∧
    (settleResolve (issueAsync initState "bar" keyC3) "bar" keyC3 0 1 (.vstr "BAR")).pending
      = some [] ∧
    (some [] : Option (List (String × JSVal))) ≠ none :=
  ⟨rfl, rfl, by simp⟩

/-- C5 counterexample: the argument sequences consisting of `undefined` and
of `null` are different, yet JSON.stringify serializes both as null inside
the array, so the derived cache keys coincide: the key derivation is not
injective on distinct invocation triples. -/
theorem c5_counterexample_undefined_null_collide :
    mkKey (.vstr "ns") (.vstr "m") [JSVal.undefV] = mkKey (.vstr "ns") (.vstr "m") [JSVal.null] ∧
    [JSVal.undefV] ≠ [JSVal.null] :=
  ⟨rfl, by simp⟩

/-- C5 amended: the cache key is deterministically derived from the triple,
but it depends only on the element-wise JSON serialization of the triple;
argument sequences whose serializations agree (such as one containing
undefined versus null in the same position) therefore produce equal keys,
so the derivation is not injective. -/
theorem c5_amended_key_determined_by_serial
    (ns path : JSVal) (args args' : List JSVal)
    (h : args.map serInArray = args'.map serInArray) :
    mkKey ns path args = mkKey ns path args' := by
  simp [mkKey, jsonArr, h]

/-- C5 amended witness: applied to the undefined versus null collision. -/
theorem c5_amended_key_determined_by_serial_witness :
    ([JSVal.undefV].map serInArray = [JSVal.null].map serInArray) ∧
    mkKey (.vstr "ns") (.vstr "m") [JSVal.undefV] = mkKey (.vstr "ns") (.vstr "m") [JSVal.null] :=
  ⟨rfl, c5_amended_key_determined_by_serial (.vstr "ns") (.vstr "m") [JSVal.undefV] [JSVal.null] rfl⟩

/-- C10: a successful settlement whose captured identifier is stale leaves
the rendered state (values, pending, rejected) and the tracking table
untouched, yet still overwrites the shared cache entry for its key and the
memo field of its promise, because the success handler runs before the
identifier gate. -/
theorem c10_stale_success_still_writes_cache_and_memo
    (st : MachineState) (prop key : String) (pid id : Nat) (data : JSVal)
    (h : lookupA st.tracking prop ≠ some id) :
    (settleResolve st prop key pid id data).values = st.values ∧
    (settleResolve st prop key pid id data).pending = st.pending ∧
    (settleResolve st prop key pid id data).rejected = st.rejected ∧
    (settleResolve st prop key pid id data).tracking = st.tracking ∧
    lookupA (settleResolve st prop key pid id data).cache key = some data ∧
    lookupA (settleResolve st prop key pid id data).memos pid = some data := by
  simp [settleResolve, h, lookupA_setA_self]

/-- C10 witness: a settlement captured with identifier 1 while tracking
holds identifier 2. -/
theorem c10_stale_success_still_writes_cache_and_memo_witness :
    (lookupA stC10.tracking "p" ≠ some 1) ∧
    ((settleResolve stC10 "p" keyC3 7 1 (.vstr "LATE")).values = stC10.values ∧
     (settleResolve stC10 "p" keyC3 7 1 (.vstr "LATE")).pending = stC10.pending ∧
     (settleResolve stC10 "p" keyC3 7 1 (.vstr "LATE")).rejected = stC10.rejected ∧
     (settleResolve stC10 "p" keyC3 7 1 (.vstr "LATE")).tracking = stC10.tracking ∧
     lookupA (settleResolve stC10 "p" keyC3 7 1 (.vstr "LATE")).cache keyC3
       = some (.vstr "LATE") ∧
     lookupA (settleResolve stC10 "p" keyC3 7 1 (.vstr "LATE")).memos 7
       = some (.vstr "LATE")) :=
  ⟨by decide, c10_stale_success_still_writes_cache_and_memo stC10 "p" keyC3 7 1 (.vstr "LATE")
    (by decide)⟩

/-- C2 counterexample: in the cfgC2 trace, the newer invocation B for `p`
produced the synchronous value 99, which the sync branch commits without
touching the tracking table; the older async invocation A therefore still
matches the current tracking identifier when it settles late, and its
settlement overwrites the rendered value 99 with LATE. With a synchronous
newer invocation, the stale settlement DOES alter the rendered state. -/
theorem c2_counterexample_sync_newer_invocation :
    (traceC2.map fun r => lookupA r.1.values "p") = some (some (.vnum 99)) ∧
    (traceC2.map fun r => lookupA r.2.values "p") = some (some (.vstr "LATE")) ∧
    JSVal.vstr "LATE" ≠ JSVal.vnum 99 :=
  ⟨rfl, rfl, by simp⟩

/-- C2 amended: when the newer invocation B for the same property is itself
asynchronous (so that it allocates a fresh tracking identifier), the late
settlement of the older invocation A, whether success or failure, leaves the
rendered state (values, pending, rejected) unchanged — a stale success may
still touch only the cache and memo fields, and a stale failure changes
nothing at all. -/
theorem c2_amended_stale_settlement_dropped_when_newer_is_async
    (st : MachineState) (p kA kB : String) (pid : Nat) (vA e : JSVal) :
    (settleResolve (issueAsync (issueAsync st p kA) p kB) p kA pid (st.counter + 1) vA).values
      = (issueAsync (issueAsync st p kA) p kB).values ∧
    (settleResolve (issueAsync (issueAsync st p kA) p kB) p kA pid (st.counter + 1) vA).pending
      = (issueAsync (issueAsync st p kA) p kB).pending ∧
    (settleResolve (issueAsync (issueAsync st p kA) p kB) p kA pid (st.counter + 1) vA).rejected
      = (issueAsync (issueAsync st p kA) p kB).rejected ∧
    settleReject (issueAsync (issueAsync st p kA) p kB) p kA (st.counter + 1) e
      = issueAsync (issueAsync st p kA) p kB := by
  have htr : lookupA (issueAsync (issueAsync st p kA) p kB).tracking p
      = some (st.counter + 2) := by
    rw [issueAsync_tracking, issueAsync_counter]
    exact lookupA_setA_self _ _ _
  have hne : lookupA (issueAsync (issueAsync st p kA) p kB).tracking p
      ≠ some (st.counter + 1) := by
    rw [htr]
    simp
  refine ⟨?_, ?_, ?_, ?_⟩ <;> simp [settleResolve, settleReject, hne]

/-- C3: if the shared cache holds a value V (defined, possibly falsy such as
0) under key k when an invocation for property p with key k is issued, and
that invocation then rejects with error e without a newer invocation for p
in between, the committed rendered state has rejected.p = e and p = V: the
cached value is staged at issuance (a typeof check, so falsy values count)
and kept or re-staged at rejection. -/
theorem c3_fallback_on_error_keeps_cached_value
    (st : MachineState) (prop key : String) (V err : JSVal)
    (hc : lookupA st.cache key = some V) (hV : V ≠ JSVal.undefV) :
    lookupA (settleReject (issueAsync st prop key) prop key (st.counter + 1) err).values prop
      = some V ∧
    lookupA ((settleReject (issueAsync st prop key) prop key (st.counter + 1) err).rejected.getD [])
      prop = some err := by
  have htr : lookupA (issueAsync st prop key).tracking prop = some (st.counter + 1) := by
    rw [issueAsync_tracking]
    exact lookupA_setA_self _ _ _
  have hv1 : (issueAsync st prop key).values = setA st.values prop V :=
    issueAsync_values_cached st prop key V hc hV
  have hcache : getJS (issueAsync st prop key).cache key = V := by
    rw [issueAsync_cache]
    simp [getJS, hc]
  constructor
  · by_cases htv : truthy V
    · simp [settleReject, htr, hcache, htv, lookupA_setA_self]
    · simp [settleReject, htr, hcache, htv, hv1, lookupA_setA_self]
  · simp [settleReject, htr, lookupA_setA_self]

/-- C3 witness: the cached value 0 (falsy) is kept as the display value next
to the staged rejection. -/
theorem c3_fallback_on_error_keeps_cached_value_witness :
    (lookupA stC3.cache keyC3 = some (.vnum 0)) ∧ (JSVal.vnum 0 ≠ JSVal.undefV) ∧
    (lookupA (settleReject (issueAsync stC3 "p" keyC3) "p" keyC3 (stC3.counter + 1)
        (.vstr "ERR")).values "p" = some (.vnum 0) ∧
     lookupA ((settleReject (issueAsync stC3 "p" keyC3) "p" keyC3 (stC3.counter + 1)
        (.vstr "ERR")).rejected.getD []) "p" = some (.vstr "ERR")) :=
  ⟨rfl, by simp, c3_fallback_on_error_keeps_cached_value stC3 "p" keyC3 (.vnum 0) (.vstr "ERR")
    rfl (by simp)⟩

/-- C6: when the incoming props are shallowly equal to the current ones,
componentWillReceiveProps short-circuits before even computing keys: no
model method is invoked, the per-property invocation state (indeed the whole
machine state) is unchanged, and shouldComponentUpdate over the unchanged
props and state returns false, so the wrapped component is not re-rendered.
This holds a fortiori under the additional condition of the claim that every
computed key equals the recorded one. -/
theorem c6_unchanged_props_no_invoke_no_rerender
    (cfg : Config) (st : MachineState) (curProps nextProps : Props)
    (h : shallowEqual nextProps curProps = true) :
    componentWillReceiveProps cfg st curProps nextProps = .ok (st, []) ∧
    shouldComponentUpdate nextProps curProps st st = false := by
  constructor
  · simp [componentWillReceiveProps, h]
  · simp [shouldComponentUpdate, h]

/-- C6 witness: identical props over the trivial configuration. -/
theorem c6_unchanged_props_no_invoke_no_rerender_witness :
    (shallowEqual propsA1 propsA1 = true) ∧
    (componentWillReceiveProps cfgC6 initState propsA1 propsA1 = .ok (initState, []) ∧
     shouldComponentUpdate propsA1 propsA1 initState initState = false) :=
  ⟨by decide, c6_unchanged_props_no_invoke_no_rerender cfgC6 initState propsA1 propsA1 (by decide)⟩

/-- C4 counterexample: in the cfgC4 trace the incoming props are shallowly
different and the computed key of every mapped property changed (the two
entries swap keys), yet componentWillReceiveProps issues no invocation at
all and leaves currentKeys.p at the old key, because the source gates the
full reconcile on the conjunction of a shallow props difference AND a change
of the newline-joined key list, which is unchanged under the swap. A full
reconcile at this point would have issued two invocations. So a shallow
property difference does not suffice, and the claimed disjunction is wrong. -/
theorem c4_counterexample_props_differ_no_reconcile :
    shallowEqual propsA2 propsA1 = false ∧
    (traceC4.map fun r => r.2) = some [] ∧
    (traceC4.map fun r => lookupA r.1.currentKeys "p")
      = some (some (mkKey (.vstr "ns") (.vstr "m1") [])) ∧
    (traceC4.bind fun r => (invoke cfgC4 r.1 propsA2 false false).toOption.map fun x => x.2.2)
      = some [.callPath "m1" [], .callPath "m2" []] ∧
    ([Effect.callPath "m1" [], Effect.callPath "m2" []] : List Effect) ≠ [] :=
  ⟨rfl, rfl, rfl, rfl, by simp⟩

/-- C4 amended: the full reconcile (and hence any invocation) happens on a
property update only when the incoming properties are shallowly different
AND the newline-joined key list computed for them differs from the stored
one; a shallow property difference alone does not trigger reconciliation. -/
theorem c4_amended_reconcile_needs_props_and_key_change
    (cfg : Config) (st : MachineState) (curProps nextProps : Props)
    (out : MachineState × List Effect)
    (hok : componentWillReceiveProps cfg st curProps nextProps = .ok out)
    (hne : out.2 ≠ []) :
    shallowEqual nextProps curProps = false ∧
    ∃ st1 ks effs0, invoke cfg st nextProps true false = .ok (st1, ks, effs0) ∧
      joinU st.keys ≠ joinU (some ks) := by
  by_cases hse : shallowEqual nextProps curProps = true
  · rw [componentWillReceiveProps, if_pos hse] at hok
    cases hok
    exact absurd rfl hne
  · have hse' : shallowEqual nextProps curProps = false := by
      simpa using hse
    refine ⟨hse', ?_⟩
    rw [componentWillReceiveProps, if_neg (by simp [hse'])] at hok
    cases hinv : invoke cfg st nextProps true false with
    | error e =>
      rw [hinv] at hok
      cases hok
    | ok r =>
      obtain ⟨st1, ks, effs0⟩ := r
      rw [hinv] at hok
      by_cases hj : joinU st.keys ≠ joinU (some ks)
      · exact ⟨st1, ks, effs0, rfl, hj⟩
      · have hjeq : joinU st.keys = joinU (some ks) := not_not.mp hj
        simp only [hjeq, ne_eq, not_true_eq_false, if_false, ite_false] at hok
        simp only [Except.ok.injEq] at hok
        rw [← hok] at hne
        exact absurd rfl hne

/-- C4 amended witness: the cfgC4w update does reconcile (one invocation is
emitted), and indeed its props are shallowly different and its joined key
list changed. -/
theorem c4_amended_reconcile_needs_props_and_key_change_witness :
    (componentWillReceiveProps cfgC4w stC4w propsA1 propsA2 = .ok outC4w) ∧
    (outC4w.2 ≠ []) ∧
    (shallowEqual propsA2 propsA1 = false ∧
     ∃ st1 ks effs0, invoke cfgC4w stC4w propsA2 true false = .ok (st1, ks, effs0) ∧
       joinU stC4w.keys ≠ joinU (some ks)) :=
  ⟨rfl, by decide,
   c4_amended_reconcile_needs_props_and_key_change cfgC4w stC4w propsA1 propsA2 outC4w rfl
     (by decide)⟩

/-- C7: a forced reconcile (refresh) processes every mapped property and
calls its model method exactly once per call, even when the computed key of
every property equals the recorded currentKeys entry — the very situation in
which a non-forced reconcile performs no call at all (second conjunct) — and
a successful settlement of such a forced invocation still overwrites the
shared cache entry under that same key (third conjunct). -/
theorem c7_refresh_reissues_each_mapped_prop_once
    (ns : JSVal) (m : Model) (p1 p2 s1 s2 : String) (a1 a2 : List JSVal)
    (props : Props) (st : MachineState) (f1 f2 : Nat)
    (st2 : MachineState) (pid id : Nat) (data : JSVal)
    (h1 : m.delve s1 = .vfun f1) (h2 : m.delve s2 = .vfun f2)
    (hk1 : lookupA st.currentKeys p1 = some (mkKey ns (.vstr s1) (a1.map (substArg props))))
    (hk2 : lookupA st.currentKeys p2 = some (mkKey ns (.vstr s2) (a2.map (substArg props)))) :
    ((invoke ⟨ns, .staticM [(p1, .arr (.vstr s1) a1), (p2, .arr (.vstr s2) a2)], m⟩
        st props false true).toOption.map (fun r => r.2.2)
       = some [.callPath s1 (a1.map (substArg props)), .callPath s2 (a2.map (substArg props))]) ∧
    ((invoke ⟨ns, .staticM [(p1, .arr (.vstr s1) a1), (p2, .arr (.vstr s2) a2)], m⟩
        st props false false).toOption.map (fun r => r.2.2)
       = some []) ∧
    lookupA (settleResolve st2 p1 (mkKey ns (.vstr s1) (a1.map (substArg props))) pid id
        data).cache (mkKey ns (.vstr s1) (a1.map (substArg props))) = some data := by
  refine ⟨?_, ?_, ?_⟩
  · simp [invoke, invokeStep, mappingOf, isFnSpec, entryPath, entryArgs, h1, h2, truthy,
      List.foldlM, Bind.bind, Except.bind, Pure.pure, Except.pure, Except.toOption]
  · simp [invoke, invokeStep, mappingOf, isFnSpec, entryPath, entryArgs, hk1, hk2,
      List.foldlM, Bind.bind, Except.bind, Pure.pure, Except.pure, Except.toOption]
  · by_cases hgate : lookupA st2.tracking p1 = some id <;>
      simp [settleResolve, hgate, lookupA_setA_self]

/-- C7 witness: two mapped properties whose recorded keys match the newly
computed keys; refresh still calls both methods once. -/
theorem c7_refresh_reissues_each_mapped_prop_once_witness :
    (mC7.delve "s1" = .vfun 1) ∧ (mC7.delve "s2" = .vfun 2) ∧
    (lookupA stC7.currentKeys "p1" = some (mkKey (.vstr "ns") (.vstr "s1") ([].map (substArg [])))) ∧
    (lookupA stC7.currentKeys "p2" = some (mkKey (.vstr "ns") (.vstr "s2") ([].map (substArg [])))) ∧
    (((invoke ⟨.vstr "ns", .staticM [("p1", .arr (.vstr "s1") []), ("p2", .arr (.vstr "s2") [])], mC7⟩
        stC7 [] false true).toOption.map (fun r => r.2.2)
       = some [.callPath "s1" ([].map (substArg [])), .callPath "s2" ([].map (substArg []))]) ∧
     ((invoke ⟨.vstr "ns", .staticM [("p1", .arr (.vstr "s1") []), ("p2", .arr (.vstr "s2") [])], mC7⟩
        stC7 [] false false).toOption.map (fun r => r.2.2)
       = some []) ∧
     lookupA (settleResolve initState "p1" (mkKey (.vstr "ns") (.vstr "s1") ([].map (substArg []))) 0 1
        (.vnum 42)).cache (mkKey (.vstr "ns") (.vstr "s1") ([].map (substArg []))) = some (.vnum 42)) :=
  ⟨rfl, rfl, rfl, rfl,
   c7_refresh_reissues_each_mapped_prop_once (.vstr "ns") mC7 "p1" "p2" "s1" "s2" [] [] [] stC7 1 2
     initState 0 1 (.vnum 42) rfl rfl rfl rfl⟩

/-- C8: a method path string that does not resolve to a truthy value on the
contextual model makes the invocation attempt stop with the synchronous
Error of index.js line 100, which invoke propagates uncaught; whereas the
rejection of an issued asynchronous operation is handled by a total
settlement function that merely records the error as data in the rejected
set for the property (it raises nothing). -/
theorem c8_config_error_fatal_rejection_recorded_as_data
    (m : Model) (ns : JSVal) (s prop : String) (props : Props) (st : MachineState)
    (st2 : MachineState) (p2 key : String) (id : Nat) (err : JSVal)
    (hbad : truthy (m.delve s) = false)
    (htr : lookupA st2.tracking p2 = some id) :
    invoke ⟨ns, .staticM [(prop, .plain (.vstr s))], m⟩ st props false true
      = .error ("Error: " ++ jsToString ns ++ "." ++ s ++ " not found.") ∧
    lookupA ((settleReject st2 p2 key id err).rejected.getD []) p2 = some err := by
  constructor
  · simp [invoke, invokeStep, mappingOf, isFnSpec, entryPath, entryArgs, hbad, List.foldlM,
      Bind.bind, Except.bind, Pure.pure, Except.pure]
  · simp [settleReject, htr, lookupA_setA_self]

/-- C8 witness: an unresolvable path on the empty model throws, and a
current rejection is recorded for its property. -/
theorem c8_config_error_fatal_rejection_recorded_as_data_witness :
    (truthy (mNull.delve "bar") = false) ∧
    (lookupA stC8.tracking "p" = some 1) ∧
    (invoke ⟨.vstr "foo", .staticM [("p", .plain (.vstr "bar"))], mNull⟩ initState [] false true
       = .error ("Error: " ++ jsToString (.vstr "foo") ++ "." ++ "bar" ++ " not found.") ∧
     lookupA ((settleReject stC8 "p" keyC3 1 (.vstr "boom")).rejected.getD []) "p"
       = some (.vstr "boom")) :=
  ⟨rfl, rfl,
   c8_config_error_fatal_rejection_recorded_as_data mNull (.vstr "foo") "bar" "p" [] initState
     stC8 "p" keyC3 1 (.vstr "boom") rfl rfl⟩

/-- C9: for a static mapping specification, string arguments are substituted
by current prop values before both cache-key computation and the method
call; for a functional mapping specification built from the same entry, the
raw arguments are used literally in both places. -/
theorem c9_shorthand_substitution_only_for_static_spec
    (ns : JSVal) (m : Model) (s prop : String) (rawArgs : List JSVal)
    (props : Props) (st : MachineState) (fid : Nat)
    (hm : m.delve s = .vfun fid) :
    ((invoke ⟨ns, .staticM [(prop, .arr (.vstr s) rawArgs)], m⟩ st props false true).toOption.map
        (fun r => (r.2.1, r.2.2))
       = some ([mkKey ns (.vstr s) (rawArgs.map (substArg props))],
               [.callPath s (rawArgs.map (substArg props))])) ∧
    ((invoke ⟨ns, .fnM (fun _ => [(prop, .arr (.vstr s) rawArgs)]), m⟩ st props false true).toOption.map
        (fun r => (r.2.1, r.2.2))
       = some ([mkKey ns (.vstr s) rawArgs], [.callPath s rawArgs])) := by
  constructor <;>
    simp [invoke, invokeStep, mappingOf, isFnSpec, entryPath, entryArgs, hm, truthy,
      List.foldlM, Bind.bind, Except.bind, Pure.pure, Except.pure, Except.toOption]

/-- C9 witness: the raw argument is the string a, which names a prop of
value 5; the static mapping keys and calls with 5, the functional mapping
with the literal string a. -/
theorem c9_shorthand_substitution_only_for_static_spec_witness :
    (mC9.delve "getStory" = .vfun 3) ∧
    ([JSVal.vstr "a"].map (substArg [("a", JSVal.vnum 5)]) = [JSVal.vnum 5]) ∧
    (((invoke ⟨.vstr "ns", .staticM [("story", .arr (.vstr "getStory") [.vstr "a"])], mC9⟩
        initState [("a", .vnum 5)] false true).toOption.map (fun r => (r.2.1, r.2.2))
       = some ([mkKey (.vstr "ns") (.vstr "getStory") ([JSVal.vstr "a"].map (substArg [("a", JSVal.vnum 5)]))],
               [.callPath "getStory" ([JSVal.vstr "a"].map (substArg [("a", JSVal.vnum 5)]))])) ∧
     ((invoke ⟨.vstr "ns", .fnM (fun _ => [("story", .arr (.vstr "getStory") [.vstr "a"])]), mC9⟩
        initState [("a", .vnum 5)] false true).toOption.map (fun r => (r.2.1, r.2.2))
       = some ([mkKey (.vstr "ns") (.vstr "getStory") [.vstr "a"]],
               [.callPath "getStory" [.vstr "a"]]))) :=
  ⟨rfl, rfl,
   c9_shorthand_substitution_only_for_static_spec (.vstr "ns") mC9 "getStory" "story"
     [.vstr "a"] [("a", .vnum 5)] initState 3 rfl⟩

end Wiretie
